import Mathlib

/-!
# Verification of `futures-native-timers`

A shallow embedding of the timer crate's poll-side logic and of its
per-platform native timer backends, together with proofs of the spec claims.

The crate contains two checked-in revisions of the polling logic:

* `lib.rs` defines `TimerState`, `Timer`, and its own `Delay` / `Interval`
  (with `Mutex`-guarded state); these are embedded in namespace `LibRs`.
* `delay.rs`, `interval.rs`, `timeout.rs` are a second revision whose
  `Timer` / `TimerState` definitions (with a `set_done` method) are not
  checked in; their cell is modelled from the spec (§3 "Completion Cell",
  §4.1) and from their call sites, and has the same two fields
  (`wake` slot, `done` flag) as the `lib.rs` `TimerState`.

Concurrency is modelled by explicit event traces (the OS callback firing is
an event interleaved with poll events); each single poll runs sequentially,
as the mutex/atomics in the source make its cell accesses well-ordered.
Machine integers in the backend conversions are `Nat`/`Int` with explicit
wrap-around where the source casts between widths.
-/

namespace FNT

/-- Wake capabilities (`Waker`) are opaque handles; only identity matters. -/
abbrev Waker := Nat

/-- Timestamps (`Instant::now()`); opaque, supplied as a poll input. -/
abbrev Instant := Nat

/-- Models `Poll<T>` from `futures::task`. -/
inductive Poll (α : Type) where
  | ready (value : α)
  | pending
deriving DecidableEq, Repr

/-- Models `Poll::map` (used by `Timeout::poll` as `.map(Ok)`). -/
def Poll.map (f : α → β) : Poll α → Poll β
  | .ready v => .ready (f v)
  | .pending => .pending

/-- Models `std::time::Duration`: seconds plus sub-second nanoseconds.
`valid d` (below) is the representation invariant `subsec_nanos < 10^9`. -/
structure Duration where
  secs : Nat
  subsec_nanos : Nat
deriving DecidableEq, Repr

/-- The `Duration` representation invariant maintained by `std`. -/
def Duration.valid (d : Duration) : Prop := d.subsec_nanos < 1000000000

/-- Models `Duration::as_nanos()`. -/
def Duration.as_nanos (d : Duration) : Nat := d.secs * 1000000000 + d.subsec_nanos

/-- The shared completion cell, `TimerState` (`lib.rs` lines 34-51):
a slot for the registered wake capability and the expiry flag.
The second revision's cell (used by `delay.rs`/`interval.rs` via
`set_done`/`is_done`) is modelled from the spec §3 with the same fields. -/
structure TimerState where
  wake : Option Waker
  done : Bool
deriving DecidableEq, Repr

/-- Models `TimerState::new` (`lib.rs` lines 41-46). -/
def TimerState.new : TimerState := { wake := none, done := false }

/-- Models `TimerState::register_waker` (`lib.rs` lines 48-50): stores the
capability, overwriting any previous one. -/
def TimerState.register_waker (s : TimerState) (lw : Waker) : TimerState :=
  { s with wake := some lw }

/-- Modelled from the spec: the second revision's `TimerState::set_done`
(called by `delay.rs`/`interval.rs` and by the OS callbacks in
`sys/linux.rs` line 57, `sys/windows.rs` line 20); writes the expiry flag. -/
def TimerState.set_done (s : TimerState) (b : Bool) : TimerState :=
  { s with done := b }

/-- The poll-side view of a native timer handle: only its `active` flag is
observable from `Delay`/`Interval` (`is_active`, `lib.rs` lines 81-83).
The backend-specific armed parameters are modelled per backend below. -/
structure NativeHandle where
  active : Bool
deriving DecidableEq, Repr

/-- Models `NativeTimer::new` leaves the timer unarmed (all three backends set
`active: false` at creation). -/
def NativeHandle.new : NativeHandle := { active := false }

/-- Models `NativeTimer::init_delay`: arming sets `active = true`
(`sys/linux.rs` line 124, `sys/windows.rs` line 62, `sys/macos.rs` line 84);
the OS-level armed parameters are modelled per backend below. -/
def NativeHandle.init_delay (_ : NativeHandle) (_ : Duration) : NativeHandle :=
  { active := true }

/-- Models `NativeTimer::init_interval`: arming sets `active = true`. -/
def NativeHandle.init_interval (_ : NativeHandle) (_ : Duration) : NativeHandle :=
  { active := true }

/-- Models `Timer` (`lib.rs` lines 53-57): a native handle plus the shared cell. -/
structure Timer where
  handle : NativeHandle
  state : TimerState
deriving DecidableEq, Repr

/-- Models `Timer::new` (`lib.rs` lines 60-74). -/
def Timer.new : Timer := { handle := NativeHandle.new, state := TimerState.new }

/-- Models `Timer::register_waker` (`lib.rs` lines 76-79). -/
def Timer.register_waker (t : Timer) (lw : Waker) : Timer :=
  { t with state := t.state.register_waker lw }

/-- Models `Timer::is_active` (`lib.rs` lines 81-83). -/
def Timer.is_active (t : Timer) : Bool := t.handle.active

/-- Models `Timer::is_done` (`lib.rs` lines 85-87): reads the cell's expiry flag. -/
def Timer.is_done (t : Timer) : Bool := t.state.done

/-- The OS callback (`sys/linux.rs` lines 45-59 `handler`,
`sys/windows.rs` lines 13-22 `timer_callback`): sets the expiry flag and
invokes the registered wake capability (waking is external, no cell change). -/
def Timer.fire (t : Timer) : Timer :=
  { t with state := t.state.set_done true }

/-- Completion-cell operations, recorded in order by the instrumented polls
so that register-then-check ordering (spec §4.1/§5) is provable. -/
inductive CellOp where
  | register
  | checkDone
  | setDone (b : Bool)
deriving DecidableEq, Repr

/-- Models `Delay` (`delay.rs` lines 10-16; identical fields in `lib.rs` 91-97). -/
structure Delay where
  inner : Timer
  delay : Duration
  done : Bool
deriving DecidableEq, Repr

/-- Models `Delay::new` (`delay.rs` lines 18-28). -/
def Delay.new (delay : Duration) : Delay :=
  { inner := Timer.new, delay := delay, done := false }

/-- Models `Delay::poll` (`delay.rs` lines 33-46), instrumented with the ordered
trace of completion-cell operations it performs:
1. if the handle is not active, arm it as one-shot (`init_delay`) — no cell op;
2. register the wake capability (cell op `register`);
3. read the expiry flag (cell op `checkDone`); if set, record `done = true`
   and return ready, else return pending. -/
def Delay.pollT (s : Delay) (lw : Waker) : Poll Unit × Delay × List CellOp :=
  let s1 :=
    if !s.inner.is_active then
      { s with inner := { s.inner with handle := s.inner.handle.init_delay s.delay } }
    else s
  let s2 := { s1 with inner := s1.inner.register_waker lw }
  if s2.inner.is_done then
    (.ready (), { s2 with done := true }, [.register, .checkDone])
  else
    (.pending, s2, [.register, .checkDone])

/-- Models `Delay::poll`, result and state (the uninstrumented view). -/
def Delay.poll (s : Delay) (lw : Waker) : Poll Unit × Delay :=
  ((s.pollT lw).1, (s.pollT lw).2.1)

/-- Models `Delay`'s `FusedFuture::is_terminated` (`delay.rs` lines 49-53). -/
def Delay.is_terminated (s : Delay) : Bool := s.done

/-- Models `Interval` (`interval.rs` lines 10-14; identical in `lib.rs` 139-142). -/
structure Interval where
  inner : Timer
  interval : Duration
deriving DecidableEq, Repr

/-- Models `Interval::new` (`interval.rs` lines 16-21). -/
def Interval.new (interval : Duration) : Interval :=
  { inner := Timer.new, interval := interval }

/-- Models `Interval::poll_next` (`interval.rs` lines 27-40), instrumented with the
ordered trace of completion-cell operations:
1. if the handle is not active, arm it as repeating (`init_interval`);
2. register the wake capability (cell op `register`);
3. read the expiry flag (cell op `checkDone`); if set, clear it
   (cell op `setDone false`) and yield a tick carrying `Instant::now()`
   (here the input `now`), else return pending. -/
def Interval.poll_nextT (s : Interval) (lw : Waker) (now : Instant) :
    Poll (Option Instant) × Interval × List CellOp :=
  let s1 :=
    if !s.inner.is_active then
      { s with inner := { s.inner with handle := s.inner.handle.init_interval s.interval } }
    else s
  let s2 := { s1 with inner := s1.inner.register_waker lw }
  if s2.inner.is_done then
    (.ready (some now),
      { s2 with inner := { s2.inner with state := s2.inner.state.set_done false } },
      [.register, .checkDone, .setDone false])
  else
    (.pending, s2, [.register, .checkDone])

/-- Models `Interval::poll_next`, result and state (the uninstrumented view). -/
def Interval.poll_next (s : Interval) (lw : Waker) (now : Instant) :
    Poll (Option Instant) × Interval :=
  ((s.poll_nextT lw now).1, (s.poll_nextT lw now).2.1)

/-- Models `Interval`'s `FusedStream::is_terminated` (`interval.rs` lines 43-47). -/
def Interval.is_terminated (_ : Interval) : Bool := false

/-- Models `TimeoutError` (`timeout.rs` lines 56-57): carries no data. -/
inductive TimeoutError where
  | timeoutError
deriving DecidableEq, Repr

/-- Models `Timeout<F>` (`timeout.rs` lines 24-29): the wrapped operation's state
plus the internally owned `Delay`. -/
structure Timeout (σ : Type) where
  future : σ
  delay : Delay

/-- Models `FutureExt::timeout` (`timeout.rs` lines 9-20): builds the `Delay` from
the caller-supplied duration at combinator-construction time. -/
def FutureExt.timeout (future : σ) (timeout : Duration) : Timeout σ :=
  { future := future, delay := Delay.new timeout }

/-- Models `Timeout::poll` (`timeout.rs` lines 45-53). The inner future is a state
`σ` with a poll function `pollF`; the source polls the delay, and on
`Ready(_)` resolves to `Err(TimeoutError)` without touching the inner
future, otherwise polls the inner future and maps its result with `Ok`. -/
def Timeout.poll (pollF : σ → Waker → Poll τ × σ) (s : Timeout σ) (w : Waker) :
    Poll (Except TimeoutError τ) × Timeout σ :=
  match Delay.poll s.delay w with
  | (.ready _, d) => (.ready (.error .timeoutError), { s with delay := d })
  | (.pending, d) =>
    let (r, f) := pollF s.future w
    (r.map .ok, { future := f, delay := d })

/-! ## The `lib.rs` revision of the polling logic -/

namespace LibRs

/-- Models `Delay::poll` from `lib.rs` lines 114-127: lazily arm as one-shot, then
`register_waker`, then check `is_done`; on expiry set the `done` field and
return ready, else pending. -/
def Delay.poll (s : Delay) (lw : Waker) : Poll Unit × Delay :=
  let s1 :=
    if !s.inner.is_active then
      { s with inner := { s.inner with handle := s.inner.handle.init_delay s.delay } }
    else s
  let s2 := { s1 with inner := s1.inner.register_waker lw }
  if s2.inner.is_done then
    (.ready (), { s2 with done := true })
  else
    (.pending, s2)

/-- Models `Delay`'s `FusedFuture::is_terminated` from `lib.rs` lines 130-134. -/
def Delay.is_terminated (s : Delay) : Bool := s.done

/-- Models `Interval::poll_next` from `lib.rs` lines 158-172: lazily arm as
repeating, `register_waker`, then under the state lock: if `state.done`,
assign `state.done = false` and yield `Instant::now()`, else pending. -/
def Interval.poll_next (s : Interval) (lw : Waker) (now : Instant) :
    Poll (Option Instant) × Interval :=
  let s1 :=
    if !s.inner.is_active then
      { s with inner := { s.inner with handle := s.inner.handle.init_interval s.interval } }
    else s
  let s2 := { s1 with inner := s1.inner.register_waker lw }
  if s2.inner.state.done then
    (.ready (some now),
      { s2 with inner := { s2.inner with state := { s2.inner.state with done := false } } })
  else
    (.pending, s2)

/-- Models `Interval`'s `FusedStream::is_terminated` from `lib.rs` lines 175-179. -/
def Interval.is_terminated (_ : Interval) : Bool := false

end LibRs

/-! ## Machine-integer casts used by the backends -/

/-- Wrap to `u64` (`as u64` / overflowing `u64` arithmetic). -/
def u64wrap (x : Nat) : Nat := x % 2 ^ 64

/-- Models `x as i64` for an unsigned value: low 64 bits reinterpreted signed. -/
def i64ofNat (x : Nat) : Int :=
  if x % 2 ^ 64 < 2 ^ 63 then ((x % 2 ^ 64 : Nat) : Int)
  else ((x % 2 ^ 64 : Nat) : Int) - 2 ^ 64

/-- Wrap an integer into `i64` range (overflowing `i64` arithmetic). -/
def i64wrap (x : Int) : Int := (x + 2 ^ 63) % 2 ^ 64 - 2 ^ 63

/-- Models `x as u32` for a signed value: low 32 bits. -/
def u32ofInt (x : Int) : Nat := (x % 2 ^ 32).toNat

/-! ## POSIX backend (`sys/linux.rs`) -/

/-- Models `libc::timespec`; `tv_sec : time_t` (i64), `tv_nsec : suseconds_t`. -/
structure Timespec where
  tv_sec : Int
  tv_nsec : Int
deriving DecidableEq, Repr

/-- Models `libc::itimerspec`. -/
structure Itimerspec where
  it_interval : Timespec
  it_value : Timespec
deriving DecidableEq, Repr

/-- The POSIX backend's `NativeTimer` (`sys/linux.rs` lines 61-65):
OS handle plus `active`; the value last passed to `timer_settime` is kept
as `armed` so the conversions are observable. -/
structure LinuxNativeTimer where
  active : Bool
  armed : Option Itimerspec
deriving DecidableEq, Repr

/-- Models `NativeTimer::new` (`sys/linux.rs` lines 68-98): creates the OS timer
bound to the cell, `active: false`, nothing armed. -/
def LinuxNativeTimer.new : LinuxNativeTimer := { active := false, armed := none }

/-- Models `NativeTimer::is_active` (`sys/linux.rs` lines 100-102). -/
def LinuxNativeTimer.is_active (t : LinuxNativeTimer) : Bool := t.active

/-- Models `NativeTimer::init` (`sys/linux.rs` lines 122-140): set `active`, then
`timer_settime` with `it_value = start` and `it_interval = repeat` or zero. -/
def LinuxNativeTimer.init (_ : LinuxNativeTimer) (start : Timespec)
    (rep : Option Timespec) : LinuxNativeTimer :=
  { active := true,
    armed := some { it_interval := rep.getD { tv_sec := 0, tv_nsec := 0 },
                    it_value := start } }

/-- Models `NativeTimer::init_delay` (`sys/linux.rs` lines 104-111):
`timespec { tv_sec: d.as_secs() as time_t, tv_nsec: d.subsec_nanos() as suseconds_t }`. -/
def LinuxNativeTimer.init_delay (t : LinuxNativeTimer) (d : Duration) : LinuxNativeTimer :=
  t.init { tv_sec := i64ofNat d.secs, tv_nsec := (d.subsec_nanos : Int) } none

/-- Models `NativeTimer::init_interval` (`sys/linux.rs` lines 113-120): the same
`timespec` is used for both the start and the repeat argument. -/
def LinuxNativeTimer.init_interval (t : LinuxNativeTimer) (d : Duration) : LinuxNativeTimer :=
  let ticks : Timespec := { tv_sec := i64ofNat d.secs, tv_nsec := (d.subsec_nanos : Int) }
  t.init ticks (some ticks)

/-! ## Windows backend (`sys/windows.rs`) -/

/-- The Windows backend's `NativeTimer` (`sys/windows.rs` lines 24-28):
thread-pool timer handle plus `active`; `armed` keeps the last
`SetThreadpoolTimerEx` arguments `(due_time_ticks : i64, ms_period : u32)`. -/
structure WindowsNativeTimer where
  active : Bool
  armed : Option (Int × Nat)
deriving DecidableEq, Repr

/-- Models `NativeTimer::new` (`sys/windows.rs` lines 31-38): `CreateThreadpoolTimer`
with the callback and cell, `active: false`, nothing armed. -/
def WindowsNativeTimer.new : WindowsNativeTimer := { active := false, armed := none }

/-- Models `NativeTimer::is_active` (`sys/windows.rs` lines 40-42). -/
def WindowsNativeTimer.is_active (t : WindowsNativeTimer) : Bool := t.active

/-- Models `NativeTimer::init` (`sys/windows.rs` lines 61-72): set `active`, then
`SetThreadpoolTimerEx(inner, &start, repeat, 0)`. -/
def WindowsNativeTimer.init (_ : WindowsNativeTimer) (start : Int) (rep : Nat) :
    WindowsNativeTimer :=
  { active := true, armed := some (start, rep) }

/-- The tick computation shared by `init_delay`/`init_interval`
(`sys/windows.rs` lines 45-47 and 53-54):
`ticks = (subsec_nanos/100) as i64; ticks += (secs * 10_000_000) as i64`
(the multiply is wrapping `u64` arithmetic, then cast; `+=` wraps in `i64`). -/
def windowsTicks (d : Duration) : Int :=
  i64wrap ((d.subsec_nanos / 100 : Nat) + i64ofNat (u64wrap (d.secs * 10000000)))

/-- Models `NativeTimer::init_delay` (`sys/windows.rs` lines 44-50): negate the
ticks (relative due time) and arm with period `0`. -/
def WindowsNativeTimer.init_delay (t : WindowsNativeTimer) (d : Duration) :
    WindowsNativeTimer :=
  t.init (i64wrap (-(windowsTicks d))) 0

/-- Models `NativeTimer::init_interval` (`sys/windows.rs` lines 52-59):
`millis = (ticks / 10_000) as u32` (i64 division truncating toward zero,
then low 32 bits), due time is the negated ticks. -/
def WindowsNativeTimer.init_interval (t : WindowsNativeTimer) (d : Duration) :
    WindowsNativeTimer :=
  let ticks := windowsTicks d
  let millis := u32ofInt (Int.tdiv ticks 10000)
  t.init (i64wrap (-ticks)) millis

/-! ## Dispatch backend (`sys/macos.rs`) -/

/-- The macOS backend's `NativeTimer` (`sys/macos.rs` lines 43-47):
dispatch source plus `active`; `armed` keeps the last
`dispatch_source_set_timer` arguments
`(start_delta_nanos : int64_t, interval_nanos : uint64_t)`. -/
structure MacNativeTimer where
  active : Bool
  armed : Option (Int × Nat)
deriving DecidableEq, Repr

/-- Models `NativeTimer::new` (`sys/macos.rs` lines 52-67): create the source with
handler and context installed, `active: false`, nothing armed. -/
def MacNativeTimer.new : MacNativeTimer := { active := false, armed := none }

/-- Models `NativeTimer::is_active` (`sys/macos.rs` lines 69-71). -/
def MacNativeTimer.is_active (t : MacNativeTimer) : Bool := t.active

/-- Models `NativeTimer::init_delay` (`sys/macos.rs` lines 73-85):
start `d.as_nanos() as int64_t` from now, interval `0`, then resume;
sets `active`. -/
def MacNativeTimer.init_delay (_ : MacNativeTimer) (d : Duration) : MacNativeTimer :=
  { active := true, armed := some (i64ofNat d.as_nanos, 0) }

/-- Models `NativeTimer::init_interval` (`sys/macos.rs` lines 87-99):
start `d.as_nanos() as int64_t` from now, interval `d.as_nanos() as uint64_t`,
then resume; sets `active`. -/
def MacNativeTimer.init_interval (_ : MacNativeTimer) (d : Duration) : MacNativeTimer :=
  { active := true, armed := some (i64ofNat d.as_nanos, u64wrap d.as_nanos) }

/-! ## Arming traces (claim C7) -/

/-- An arming operation on a backend (`init_delay` / `init_interval`). -/
inductive ArmOp where
  | init_delay (d : Duration)
  | init_interval (d : Duration)
deriving DecidableEq, Repr

/-- Apply an arming operation to the POSIX backend. -/
def LinuxNativeTimer.applyOp (t : LinuxNativeTimer) : ArmOp → LinuxNativeTimer
  | .init_delay d => t.init_delay d
  | .init_interval d => t.init_interval d

/-- Apply an arming operation to the Windows backend. -/
def WindowsNativeTimer.applyOp (t : WindowsNativeTimer) : ArmOp → WindowsNativeTimer
  | .init_delay d => t.init_delay d
  | .init_interval d => t.init_interval d

/-- Apply an arming operation to the dispatch backend. -/
def MacNativeTimer.applyOp (t : MacNativeTimer) : ArmOp → MacNativeTimer
  | .init_delay d => t.init_delay d
  | .init_interval d => t.init_interval d

/-! ## Windows teardown (claim C9) -/

/-- The Windows API calls made by `Drop for NativeTimer`. -/
inductive WinApiCall where
  | setThreadpoolTimerExNull
  | waitForThreadpoolTimerCallbacks
  | closeThreadpoolTimer
deriving DecidableEq, Repr

/-- Models `impl Drop for NativeTimer` (`sys/windows.rs` lines 75-85): the ordered
sequence of API calls —
`SetThreadpoolTimerEx(inner, ptr::null_mut(), 0, 0)` (disarm),
`WaitForThreadpoolTimerCallbacks(inner, TRUE)` (block until in-flight
callbacks complete), `CloseThreadpoolTimer(inner)`. -/
def windowsDropCalls : List WinApiCall :=
  [.setThreadpoolTimerExNull, .waitForThreadpoolTimerCallbacks, .closeThreadpoolTimer]

/-- Modelled from the spec (§4.2 platform table, Windows row): the state of
the OS thread-pool timer object — whether it is armed to fire again,
how many callback invocations are in flight, and whether it is closed. -/
structure WinOsTimer where
  armed : Bool
  inFlight : Nat
  closed : Bool
deriving DecidableEq, Repr

/-- Modelled from the spec (§4.2 platform table, Windows row): the effect of
each teardown API call — disarming with a null due time cancels pending
expirations; `WaitForThreadpoolTimerCallbacks` returns only once no callback
invocation is in flight; `CloseThreadpoolTimer` closes the object. -/
def WinOsTimer.applyCall (s : WinOsTimer) : WinApiCall → WinOsTimer
  | .setThreadpoolTimerExNull => { s with armed := false }
  | .waitForThreadpoolTimerCallbacks => { s with inFlight := 0 }
  | .closeThreadpoolTimer => { s with closed := true }

/-- An invocation of the bound completion cell can (still) occur iff the
timer is armed to fire again or a callback is currently in flight. -/
def WinOsTimer.canInvokeCell (s : WinOsTimer) : Bool :=
  s.armed || decide (0 < s.inFlight)

/-! ## Event traces for Delay / Interval (claims C2, C3) -/

/-- An event interleaved with the poll loop: either the OS callback fires
(setting the expiry flag and waking), or the consumer polls. -/
inductive TimerEvent where
  | fire
  | poll (w : Waker) (now : Instant)
deriving DecidableEq, Repr

/-- Whether an event is a poll. -/
def TimerEvent.isPoll : TimerEvent → Bool
  | .fire => false
  | .poll _ _ => true

/-- One step of a `Delay`'s life: the callback fires, or it is polled. -/
def Delay.step (s : Delay) : TimerEvent → Delay
  | .fire => { s with inner := s.inner.fire }
  | .poll w _ => (s.poll w).2

/-- Run a `Delay` through a trace of events. -/
def Delay.run (s : Delay) (tr : List TimerEvent) : Delay :=
  tr.foldl Delay.step s

/-- One step of an `Interval`'s life, also counting the ticks produced. -/
def Interval.stepCount : Interval × Nat → TimerEvent → Interval × Nat
  | (s, n), .fire => ({ s with inner := s.inner.fire }, n)
  | (s, n), .poll w now =>
    let r := s.poll_next w now
    (r.2, n + match r.1 with | .ready _ => 1 | .pending => 0)

/-- Run an `Interval` through a trace, returning final state and tick count. -/
def Interval.runCount (s : Interval) (tr : List TimerEvent) : Interval × Nat :=
  tr.foldl Interval.stepCount (s, 0)

/-- The number of OS expiries (callback firings) in a trace. -/
def countFires (tr : List TimerEvent) : Nat :=
  tr.countP (fun e => !e.isPoll)

/-! ## Helper lemmas -/

/-- Closed form of `Delay.pollT`: readiness is exactly the cell's expiry
flag, the waker slot holds the fresh capability, the handle is armed if it
was not yet, and the `done` field latches the observed flag. -/
lemma Delay.pollT_eq (s : Delay) (w : Waker) :
    s.pollT w =
      (if s.inner.state.done then Poll.ready () else Poll.pending,
       { inner := { handle := if s.inner.handle.active then s.inner.handle
                              else s.inner.handle.init_delay s.delay,
                    state := { wake := some w, done := s.inner.state.done } },
         delay := s.delay,
         done := s.done || s.inner.state.done },
       [CellOp.register, CellOp.checkDone]) := by
  simp only [Delay.pollT, Timer.is_done, Timer.register_waker,
    TimerState.register_waker, Timer.is_active]
  by_cases ha : s.inner.handle.active <;> by_cases hd : s.inner.state.done <;>
    simp [ha, hd]

/-- Closed form of `Interval.poll_nextT`: a tick is produced exactly when
the cell's expiry flag was set, and the flag is false afterwards in every
case. -/
lemma Interval.poll_nextT_eq (s : Interval) (w : Waker) (now : Instant) :
    s.poll_nextT w now =
      (if s.inner.state.done then Poll.ready (some now) else Poll.pending,
       { inner := { handle := if s.inner.handle.active then s.inner.handle
                              else s.inner.handle.init_interval s.interval,
                    state := { wake := some w, done := false } },
         interval := s.interval },
       if s.inner.state.done then [CellOp.register, CellOp.checkDone, CellOp.setDone false]
       else [CellOp.register, CellOp.checkDone]) := by
  simp only [Interval.poll_nextT, Timer.is_done, Timer.register_waker,
    TimerState.register_waker, Timer.is_active, TimerState.set_done]
  by_cases ha : s.inner.handle.active <;> by_cases hd : s.inner.state.done <;>
    simp [ha, hd]

/-- Polling a `Delay` when the expiry flag is set yields ready. -/
lemma Delay.poll_ready_of_done (s : Delay) (w : Waker) (h : s.inner.state.done = true) :
    (Delay.poll s w).1 = .ready () := by
  simp [Delay.poll, Delay.pollT_eq, h]

/-- Polling a `Delay` leaves the cell's expiry flag unchanged
(a `Delay` never resets it). -/
lemma Delay.poll_cell_done (s : Delay) (w : Waker) :
    (Delay.poll s w).2.inner.state.done = s.inner.state.done := by
  simp [Delay.poll, Delay.pollT_eq]

/-- The `done` field after a `Delay` poll: set iff it was set or the cell
was observed expired. -/
lemma Delay.poll_done_field (s : Delay) (w : Waker) :
    (Delay.poll s w).2.done = (s.done || s.inner.state.done) := by
  simp [Delay.poll, Delay.pollT_eq]

/-- The expiry flag after a `Delay` step. -/
lemma Delay.step_cell (s : Delay) (e : TimerEvent) :
    (s.step e).inner.state.done = (s.inner.state.done || !e.isPoll) := by
  cases e with
  | fire => simp [Delay.step, Timer.fire, TimerState.set_done, TimerEvent.isPoll]
  | poll w now => simp [Delay.step, TimerEvent.isPoll, Delay.poll_cell_done]

/-- The `done` field after a `Delay` step. -/
lemma Delay.step_done (s : Delay) (e : TimerEvent) :
    (s.step e).done = (s.done || (e.isPoll && s.inner.state.done)) := by
  cases e with
  | fire => simp [Delay.step, TimerEvent.isPoll]
  | poll w now => simp [Delay.step, TimerEvent.isPoll, Delay.poll_done_field]

/-- Along any trace, the `done` field implies the cell's expiry flag. -/
lemma Delay.run_done_imp_cell (s : Delay) (tr : List TimerEvent)
    (hs : s.done = true → s.inner.state.done = true) :
    (Delay.run s tr).done = true → (Delay.run s tr).inner.state.done = true := by
  induction tr generalizing s with
  | nil => exact hs
  | cons e tr ih =>
    refine ih (s.step e) ?_
    intro h
    rw [Delay.step_done] at h
    rw [Delay.step_cell]
    rcases Bool.or_eq_true_iff.mp h with h1 | h2
    · simp [hs h1]
    · simp [Bool.and_eq_true_iff.mp h2]

/-! ## Claims -/

/-- Claim C1: For every `Timeout<F>` and on every poll, the internal `Delay`
is polled first (its post-poll state is recorded in the result state on
every call); if the `Delay` is ready, the poll resolves to
`Err(TimeoutError)` and the inner future is not polled on that call
(its state is untouched), regardless of the inner operation's readiness;
otherwise the inner future is polled and its result is forwarded verbatim
wrapped as `Ok`. -/
theorem C1_timeout_polls_delay_first {σ τ : Type}
    (pollF : σ → Waker → Poll τ × σ) (s : Timeout σ) (w : Waker) :
    (Timeout.poll pollF s w).2.delay = (Delay.poll s.delay w).2 ∧
    ((Delay.poll s.delay w).1 = .ready () →
      (Timeout.poll pollF s w).1 = .ready (.error .timeoutError) ∧
      (Timeout.poll pollF s w).2.future = s.future) ∧
    ((Delay.poll s.delay w).1 = .pending →
      (Timeout.poll pollF s w).1 = (pollF s.future w).1.map .ok ∧
      (Timeout.poll pollF s w).2.future = (pollF s.future w).2) := by
  rcases h : Delay.poll s.delay w with ⟨r, d⟩
  cases r with
  | ready v =>
    refine ⟨?_, fun _ => ⟨?_, ?_⟩, fun hp => ?_⟩ <;>
      simp_all [Timeout.poll]
  | pending =>
    refine ⟨?_, fun hr => ?_, fun _ => ⟨?_, ?_⟩⟩ <;>
      simp_all [Timeout.poll]

/-- Witness for C1: a `Timeout` whose `Delay` cell has expired and whose
inner future is simultaneously ready resolves to the timeout failure with
the inner state untouched (the documented tie-break). -/
theorem C1_timeout_polls_delay_first_witness :
    (Timeout.poll (fun (u : Unit) (_ : Waker) => (Poll.ready (), u))
      { future := ()
        delay := { inner := { handle := { active := true }
                              state := { wake := none, done := true } }
                   delay := { secs := 0, subsec_nanos := 0 }
                   done := false } } 0).1
        = Poll.ready (Except.error TimeoutError.timeoutError) ∧
    (Timeout.poll (fun (u : Unit) (_ : Waker) => (Poll.ready (), u))
      { future := ()
        delay := { inner := { handle := { active := true }
                              state := { wake := none, done := true } }
                   delay := { secs := 0, subsec_nanos := 0 }
                   done := false } } 0).2.future = () :=
  (C1_timeout_polls_delay_first (fun (u : Unit) (_ : Waker) => (Poll.ready (), u))
    { future := ()
      delay := { inner := { handle := { active := true }
                            state := { wake := none, done := true } }
                 delay := { secs := 0, subsec_nanos := 0 }
                 done := false } } 0).2.1 (by decide)

/-- Claim C2: For every `Delay`, the `done` field transitions from false to
true exactly once — on a poll step, and precisely when that poll observes
the completion cell expired — and is never reset (the step equation
`done' = done || (poll ∧ cellExpired)` gives monotonicity and pins the
transition); moreover along any trace from a fresh `Delay`, once `done`
holds every subsequent poll returns ready and `is_terminated` is true. -/
theorem C2_delay_done_latches (s : Delay) (e : TimerEvent) (d : Duration)
    (tr : List TimerEvent) (w : Waker) :
    (s.step e).done = (s.done || (e.isPoll && s.inner.state.done)) ∧
    ((Delay.run (Delay.new d) tr).done = true →
      (Delay.poll (Delay.run (Delay.new d) tr) w).1 = .ready () ∧
      (Delay.run (Delay.new d) tr).is_terminated = true) := by
  refine ⟨Delay.step_done s e, fun h => ⟨?_, h⟩⟩
  exact Delay.poll_ready_of_done _ w
    (Delay.run_done_imp_cell (Delay.new d) tr (by simp [Delay.new]) h)

/-- Witness for C2: after the trace `[fire, poll]`, a fresh zero-duration
`Delay`'s `done` field is set; the theorem then yields that the next poll
is ready and the terminated query answers true. -/
theorem C2_delay_done_latches_witness :
    (Delay.poll (Delay.run (Delay.new { secs := 0, subsec_nanos := 0 })
        [TimerEvent.fire, TimerEvent.poll 0 0]) 1).1 = .ready () ∧
    (Delay.run (Delay.new { secs := 0, subsec_nanos := 0 })
        [TimerEvent.fire, TimerEvent.poll 0 0]).is_terminated = true :=
  (C2_delay_done_latches (Delay.new { secs := 0, subsec_nanos := 0 })
    TimerEvent.fire { secs := 0, subsec_nanos := 0 }
    [TimerEvent.fire, TimerEvent.poll 0 0] 1).2 (by decide)

/-- Tick count along a trace is bounded by the number of fires plus one
pending expiry already latched in the starting state. -/
lemma Interval.runCount_le (tr : List TimerEvent) (s : Interval) (n : Nat) :
    (tr.foldl Interval.stepCount (s, n)).2
      ≤ n + countFires tr + (if s.inner.state.done then 1 else 0) := by
  induction tr generalizing s n with
  | nil => simp [countFires]
  | cons e tr ih =>
    cases e with
    | fire =>
      have h := ih { s with inner := s.inner.fire } n
      have hdone : ({ s with inner := s.inner.fire } : Interval).inner.state.done = true := rfl
      rw [hdone] at h
      simp only [List.foldl_cons, Interval.stepCount, countFires, List.countP_cons,
        TimerEvent.isPoll] at *
      simp at h ⊢
      omega
    | poll w now =>
      have h := ih (Interval.poll_next s w now).2
        (n + match (Interval.poll_next s w now).1 with
             | .ready _ => 1 | .pending => 0)
      have hcell : (Interval.poll_next s w now).2.inner.state.done = false := by
        simp [Interval.poll_next, Interval.poll_nextT_eq]
      have hres : (match (Interval.poll_next s w now).1 with
          | Poll.ready _ => 1 | Poll.pending => 0)
            = (if s.inner.state.done then 1 else 0) := by
        simp only [Interval.poll_next, Interval.poll_nextT_eq]
        by_cases hd : s.inner.state.done <;> simp [hd]
      rw [hcell] at h
      simp only [List.foldl_cons, Interval.stepCount, countFires, List.countP_cons,
        TimerEvent.isPoll, hres] at *
      simp at h ⊢
      omega

/-- Claim C3: On every poll of an `Interval`, after waker registration the
expiry flag is taken and reset in the same poll step: if the flag was set,
exactly one tick carrying the current timestamp is produced and the flag is
left false (it is false after every poll); otherwise not-ready is reported.
Consequently, along any trace of fires and polls, the number of ticks never
exceeds the number of OS expiries: no single expiry is observed as two
ticks. -/
theorem C3_interval_take_and_reset (s : Interval) (w : Waker) (now : Instant)
    (d : Duration) (tr : List TimerEvent) :
    ((Interval.poll_next s w now).1
        = (if s.inner.state.done then Poll.ready (some now) else Poll.pending)) ∧
    ((Interval.poll_next s w now).2.inner.state.done = false) ∧
    ((Interval.runCount (Interval.new d) tr).2 ≤ countFires tr) := by
  refine ⟨?_, ?_, ?_⟩
  · simp [Interval.poll_next, Interval.poll_nextT_eq]
  · simp [Interval.poll_next, Interval.poll_nextT_eq]
  · have h := Interval.runCount_le tr (Interval.new d) 0
    simpa [Interval.runCount, Interval.new, Timer.new, TimerState.new] using h

/-- Claim C4: For every `Interval` (in both checked-in revisions), the
stream-termination query `is_terminated` returns false in every state,
and `poll_next` never reports end-of-stream (`Ready(None)`): every poll
result is either a tick or pending. -/
theorem C4_interval_never_terminates (s : Interval) (w : Waker) (now : Instant) :
    Interval.is_terminated s = false ∧
    LibRs.Interval.is_terminated s = false ∧
    ((Interval.poll_next s w now).1 = Poll.ready (some now) ∨
      (Interval.poll_next s w now).1 = Poll.pending) := by
  refine ⟨rfl, rfl, ?_⟩
  simp only [Interval.poll_next, Interval.poll_nextT_eq]
  by_cases hd : s.inner.state.done <;> simp [hd]

/-- The cast `i64ofNat` is the identity below `2^63`. -/
lemma i64ofNat_of_lt {x : Nat} (h : x < 2 ^ 63) : i64ofNat x = (x : Int) := by
  simp only [i64ofNat]
  split <;> omega

/-- The cast `u64wrap` is the identity below `2^64`. -/
lemma u64wrap_of_lt {x : Nat} (h : x < 2 ^ 64) : u64wrap x = x :=
  Nat.mod_eq_of_lt h

/-- The cast `i64wrap` is the identity on the `i64` range. -/
lemma i64wrap_of_mem {x : Int} (h1 : -(2 ^ 63) ≤ x) (h2 : x < 2 ^ 63) :
    i64wrap x = x := by
  simp only [i64wrap]
  omega

/-- The cast `u32ofInt` of a natural below `2^32` is that natural. -/
lemma u32ofInt_of_lt {x : Nat} (h : x < 2 ^ 32) : u32ofInt (x : Int) = x := by
  simp only [u32ofInt]
  omega

/-- The denotation of the Windows due-time field, in 100 ns units, positive
relative (the field is stored negated). -/
def WindowsNativeTimer.dueTicks (t : WindowsNativeTimer) : Option Int :=
  t.armed.map fun a => -a.1

/-- The denotation of the Windows repeat field, converted from its
millisecond unit into 100 ns units for comparison with the due-time field. -/
def WindowsNativeTimer.repeatTicks (t : WindowsNativeTimer) : Option Int :=
  t.armed.map fun a => (a.2 : Int) * 10000

/-- Under the `Duration` invariant and a bound keeping the arithmetic inside
the native integer ranges, the Windows tick computation is
`secs * 10^7 + subsec_nanos / 100`. -/
lemma windowsTicks_eq (d : Duration) (hn : d.valid) (hs : d.secs ≤ 4000000) :
    windowsTicks d = ((d.secs * 10000000 + d.subsec_nanos / 100 : Nat) : Int) := by
  have hn' : d.subsec_nanos < 1000000000 := hn
  have h1 : d.secs * 10000000 ≤ 4000000 * 10000000 := Nat.mul_le_mul_right _ hs
  have h2 : d.subsec_nanos / 100 < 10000000 := by omega
  have hsum : ((d.subsec_nanos / 100 : Nat) : Int) + ((d.secs * 10000000 : Nat) : Int)
      = ((d.secs * 10000000 + d.subsec_nanos / 100 : Nat) : Int) := by
    push_cast
    ring
  have hw := i64wrap_of_mem
    (x := ((d.secs * 10000000 + d.subsec_nanos / 100 : Nat) : Int))
    (by omega) (by omega)
  rw [windowsTicks, u64wrap_of_lt (by omega), i64ofNat_of_lt (by omega), hsum, hw]

/-- Counterexample to C6: For the 0.1 ms duration, the Windows backend's
first-expiry field denotes 1000 × 100 ns = 0.1 ms while its repeat field
denotes 0 ms — the repeat field is the duration truncated to whole
milliseconds, not the same duration value as the first-expiry field
(with `msPeriod = 0` the thread-pool timer does not even repeat). -/
theorem C6_counterexample_windows_repeat :
    (WindowsNativeTimer.new.init_interval { secs := 0, subsec_nanos := 100000 }).dueTicks
        = some 1000 ∧
    (WindowsNativeTimer.new.init_interval { secs := 0, subsec_nanos := 100000 }).repeatTicks
        = some 0 ∧
    ¬ ((WindowsNativeTimer.new.init_interval { secs := 0, subsec_nanos := 100000 }).dueTicks
        = (WindowsNativeTimer.new.init_interval { secs := 0, subsec_nanos := 100000 }).repeatTicks) := by
  refine ⟨?_, ?_, ?_⟩ <;> decide

/-- Claim C6 amended: For durations within the native integer ranges
(`subsec_nanos < 10^9`, `secs ≤ 4·10^6`): the Windows backend converts a
duration `d` to `ticks = d.secs·10^7 + d.subsec_nanos/100` hundred-nanosecond
units, negated to mark it relative; the POSIX backend converts `d` to a
`timespec` of `(d.secs, d.subsec_nanos)`; the dispatch backend converts `d`
to `d` nanoseconds. For repeating timers the POSIX and dispatch backends use
the same duration value for both the first-expiry field and the repeat
field; the Windows backend uses the duration truncated to whole
milliseconds (`ticks / 10^4` ms) for the repeat field. -/
theorem C6_duration_conversions (d : Duration) (hn : d.valid) (hs : d.secs ≤ 4000000) :
    (WindowsNativeTimer.new.init_delay d).armed
        = some (-((d.secs * 10000000 + d.subsec_nanos / 100 : Nat) : Int), 0) ∧
    (WindowsNativeTimer.new.init_interval d).armed
        = some (-((d.secs * 10000000 + d.subsec_nanos / 100 : Nat) : Int),
                (d.secs * 10000000 + d.subsec_nanos / 100) / 10000) ∧
    (LinuxNativeTimer.new.init_delay d).armed
        = some { it_interval := { tv_sec := 0, tv_nsec := 0 }
                 it_value := { tv_sec := (d.secs : Int), tv_nsec := (d.subsec_nanos : Int) } } ∧
    (LinuxNativeTimer.new.init_interval d).armed
        = some { it_interval := { tv_sec := (d.secs : Int), tv_nsec := (d.subsec_nanos : Int) }
                 it_value := { tv_sec := (d.secs : Int), tv_nsec := (d.subsec_nanos : Int) } } ∧
    (MacNativeTimer.new.init_delay d).armed = some ((d.as_nanos : Int), 0) ∧
    (MacNativeTimer.new.init_interval d).armed = some ((d.as_nanos : Int), d.as_nanos) := by
  have hn' : d.subsec_nanos < 1000000000 := hn
  have hsec : d.secs < 2 ^ 63 := by omega
  have h1 : d.secs * 10000000 ≤ 4000000 * 10000000 := Nat.mul_le_mul_right _ hs
  have h2 : d.subsec_nanos / 100 < 10000000 := by omega
  have hT : d.secs * 10000000 + d.subsec_nanos / 100 < 2 ^ 63 := by omega
  have hnanos : d.as_nanos < 2 ^ 63 := by
    have h3 : d.secs * 1000000000 ≤ 4000000 * 1000000000 := Nat.mul_le_mul_right _ hs
    simp only [Duration.as_nanos]
    omega
  have hmillis : (d.secs * 10000000 + d.subsec_nanos / 100) / 10000 < 2 ^ 32 := by
    have h4 : (d.secs * 10000000 + d.subsec_nanos / 100) / 10000
        ≤ (4000000 * 10000000 + 10000000) / 10000 :=
      Nat.div_le_div_right (by omega)
    omega
  have hneg := i64wrap_of_mem
    (x := -((d.secs * 10000000 + d.subsec_nanos / 100 : Nat) : Int))
    (by omega) (by omega)
  refine ⟨?_, ?_, ?_, ?_, ?_, ?_⟩
  · simp only [WindowsNativeTimer.init_delay, WindowsNativeTimer.init,
      windowsTicks_eq d hn hs]
    rw [hneg]
  · simp only [WindowsNativeTimer.init_interval, WindowsNativeTimer.init,
      windowsTicks_eq d hn hs]
    have htdiv : Int.tdiv ((d.secs * 10000000 + d.subsec_nanos / 100 : Nat) : Int) 10000
        = (((d.secs * 10000000 + d.subsec_nanos / 100) / 10000 : Nat) : Int) := rfl
    rw [htdiv, u32ofInt_of_lt hmillis, hneg]
  · simp [LinuxNativeTimer.init_delay, LinuxNativeTimer.init, i64ofNat_of_lt hsec]
  · simp [LinuxNativeTimer.init_interval, LinuxNativeTimer.init, i64ofNat_of_lt hsec]
  · simp [MacNativeTimer.init_delay, i64ofNat_of_lt hnanos]
  · simp [MacNativeTimer.init_interval, i64ofNat_of_lt hnanos,
      u64wrap_of_lt (x := d.as_nanos) (by omega)]

/-- Witness for C6 (amended), at the duration 2 s + 300 ns: Windows arms
with due time −20000003 ticks and repeats every 2000 ms; POSIX arms with
the `timespec` (2 s, 300 ns) in both fields; dispatch arms with
2000000300 ns in both fields. -/
theorem C6_duration_conversions_witness :
    (WindowsNativeTimer.new.init_delay { secs := 2, subsec_nanos := 300 }).armed
        = some (-((2 * 10000000 + 300 / 100 : Nat) : Int), 0) ∧
    (WindowsNativeTimer.new.init_interval { secs := 2, subsec_nanos := 300 }).armed
        = some (-((2 * 10000000 + 300 / 100 : Nat) : Int),
                (2 * 10000000 + 300 / 100) / 10000) ∧
    (LinuxNativeTimer.new.init_delay { secs := 2, subsec_nanos := 300 }).armed
        = some { it_interval := { tv_sec := 0, tv_nsec := 0 }
                 it_value := { tv_sec := ((2 : Nat) : Int), tv_nsec := ((300 : Nat) : Int) } } ∧
    (LinuxNativeTimer.new.init_interval { secs := 2, subsec_nanos := 300 }).armed
        = some { it_interval := { tv_sec := ((2 : Nat) : Int), tv_nsec := ((300 : Nat) : Int) }
                 it_value := { tv_sec := ((2 : Nat) : Int), tv_nsec := ((300 : Nat) : Int) } } ∧
    (MacNativeTimer.new.init_delay { secs := 2, subsec_nanos := 300 }).armed
        = some (((Duration.mk 2 300).as_nanos : Int), 0) ∧
    (MacNativeTimer.new.init_interval { secs := 2, subsec_nanos := 300 }).armed
        = some (((Duration.mk 2 300).as_nanos : Int), (Duration.mk 2 300).as_nanos) :=
  C6_duration_conversions { secs := 2, subsec_nanos := 300 }
    (by norm_num [Duration.valid]) (by norm_num)

/-- Arming-trace closed form for the POSIX backend. -/
lemma linux_arm_trace_active (ops : List ArmOp) (t : LinuxNativeTimer) :
    (ops.foldl LinuxNativeTimer.applyOp t).active = (t.active || !ops.isEmpty) := by
  induction ops generalizing t with
  | nil => simp
  | cons op ops ih =>
    have h : (LinuxNativeTimer.applyOp t op).active = true := by cases op <;> rfl
    simp [ih, h]

/-- Arming-trace closed form for the Windows backend. -/
lemma windows_arm_trace_active (ops : List ArmOp) (t : WindowsNativeTimer) :
    (ops.foldl WindowsNativeTimer.applyOp t).active = (t.active || !ops.isEmpty) := by
  induction ops generalizing t with
  | nil => simp
  | cons op ops ih =>
    have h : (WindowsNativeTimer.applyOp t op).active = true := by cases op <;> rfl
    simp [ih, h]

/-- Arming-trace closed form for the dispatch backend. -/
lemma mac_arm_trace_active (ops : List ArmOp) (t : MacNativeTimer) :
    (ops.foldl MacNativeTimer.applyOp t).active = (t.active || !ops.isEmpty) := by
  induction ops generalizing t with
  | nil => simp
  | cons op ops ih =>
    have h : (MacNativeTimer.applyOp t op).active = true := by cases op <;> rfl
    simp [ih, h]

/-- Claim C7: For every native timer backend, creation does not arm the timer
(`is_active` is false right after `new`), and after any sequence of arming
operations `is_active` is true exactly when at least one
`init_delay`/`init_interval` has been performed — so it is true from the
first arming call onward and never becomes false again. -/
theorem C7_creation_unarmed_active_latches (ops : List ArmOp) :
    LinuxNativeTimer.new.active = false ∧
    WindowsNativeTimer.new.active = false ∧
    MacNativeTimer.new.active = false ∧
    (ops.foldl LinuxNativeTimer.applyOp LinuxNativeTimer.new).active = !ops.isEmpty ∧
    (ops.foldl WindowsNativeTimer.applyOp WindowsNativeTimer.new).active = !ops.isEmpty ∧
    (ops.foldl MacNativeTimer.applyOp MacNativeTimer.new).active = !ops.isEmpty := by
  refine ⟨rfl, rfl, rfl, ?_, ?_, ?_⟩ <;>
    simp [linux_arm_trace_active, windows_arm_trace_active,
      mac_arm_trace_active, LinuxNativeTimer.new, WindowsNativeTimer.new,
      MacNativeTimer.new]

/-- Claim C8: On every poll of a `Delay` or an `Interval`, the recorded
completion-cell operation sequence starts with the waker registration,
immediately followed by the expiry check: no poll performs the expiry
check before waker registration (register-then-check ordering). -/
theorem C8_register_before_check (s : Delay) (si : Interval) (w : Waker)
    (now : Instant) :
    (∃ rest, (s.pollT w).2.2 = CellOp.register :: CellOp.checkDone :: rest) ∧
    (∃ rest, (si.poll_nextT w now).2.2 = CellOp.register :: CellOp.checkDone :: rest) := by
  constructor
  · exact ⟨[], by simp [Delay.pollT_eq]⟩
  · by_cases hd : si.inner.state.done
    · exact ⟨[CellOp.setDone false], by simp [Interval.poll_nextT_eq, hd]⟩
    · exact ⟨[], by simp [Interval.poll_nextT_eq, hd]⟩

/-- Claim C9: The Windows backend's destruction performs, in order: disarm
(`SetThreadpoolTimerEx` with a null due time, position 0), then block until
in-flight callbacks complete (`WaitForThreadpoolTimerCallbacks`, position 1),
then close the timer (`CloseThreadpoolTimer`, position 2); in the modelled
OS-timer semantics, running those calls from any state leaves a closed
timer from which no further invocation of the bound completion cell can
occur. -/
theorem C9_windows_teardown (s : WinOsTimer) :
    windowsDropCalls.indexOf WinApiCall.setThreadpoolTimerExNull = 0 ∧
    windowsDropCalls.indexOf WinApiCall.waitForThreadpoolTimerCallbacks = 1 ∧
    windowsDropCalls.indexOf WinApiCall.closeThreadpoolTimer = 2 ∧
    (windowsDropCalls.foldl WinOsTimer.applyCall s).canInvokeCell = false ∧
    (windowsDropCalls.foldl WinOsTimer.applyCall s).closed = true := by
  refine ⟨by decide, by decide, by decide, ?_, ?_⟩ <;>
    simp [windowsDropCalls, WinOsTimer.applyCall, WinOsTimer.canInvokeCell]

/-- Closed form of the `lib.rs` revision's `Delay::poll`. -/
lemma LibRs.Delay.poll_eq (s : Delay) (w : Waker) :
    LibRs.Delay.poll s w =
      (if s.inner.state.done then Poll.ready () else Poll.pending,
       { inner := { handle := if s.inner.handle.active then s.inner.handle
                              else s.inner.handle.init_delay s.delay,
                    state := { wake := some w, done := s.inner.state.done } },
         delay := s.delay,
         done := s.done || s.inner.state.done }) := by
  simp only [LibRs.Delay.poll, Timer.is_done, Timer.register_waker,
    TimerState.register_waker, Timer.is_active]
  by_cases ha : s.inner.handle.active <;> by_cases hd : s.inner.state.done <;>
    simp [ha, hd]

/-- Closed form of the `lib.rs` revision's `Interval::poll_next`. -/
lemma LibRs.Interval.poll_next_eq (s : Interval) (w : Waker) (now : Instant) :
    LibRs.Interval.poll_next s w now =
      (if s.inner.state.done then Poll.ready (some now) else Poll.pending,
       { inner := { handle := if s.inner.handle.active then s.inner.handle
                              else s.inner.handle.init_interval s.interval,
                    state := { wake := some w, done := false } },
         interval := s.interval }) := by
  simp only [LibRs.Interval.poll_next, Timer.is_done, Timer.register_waker,
    TimerState.register_waker, Timer.is_active]
  by_cases ha : s.inner.handle.active <;> by_cases hd : s.inner.state.done <;>
    simp [ha, hd]

/-- Claim C10: The two checked-in revisions of the polling logic are
behaviorally equivalent: `Delay::poll` in `lib.rs` and in `delay.rs`
(result, waker slot, done flag and done field all agree), their
`is_terminated` queries agree, and `Interval::poll_next` in `lib.rs` and in
`interval.rs` agree on result and resulting timer state, from every
starting state. -/
theorem C10_lib_and_module_revisions_agree (s : Delay) (si : Interval)
    (w : Waker) (now : Instant) :
    LibRs.Delay.poll s w = Delay.poll s w ∧
    LibRs.Delay.is_terminated s = Delay.is_terminated s ∧
    LibRs.Interval.poll_next si w now = Interval.poll_next si w now := by
  refine ⟨?_, rfl, ?_⟩
  · rw [LibRs.Delay.poll_eq]
    simp [Delay.poll, Delay.pollT_eq]
  · rw [LibRs.Interval.poll_next_eq]
    simp [Interval.poll_next, Interval.poll_nextT_eq]

end FNT
